import Mathlib

/-!
Shallow embedding of the transcription orchestration core of
`src/modal/transcribe.py` (yt-lyrics-backend), together with proofs about
the claims of the specification.

Conventions:
* Python floats are modelled as `ℚ` (the code only adds, subtracts,
  compares and averages timestamps; no float rounding is relevant to the
  claims).
* Python dicts whose keys may be absent are modelled as structures with
  `Option` fields; a `.get(k, default)` becomes `Option.getD`.
* A Python value that may be `None` is an `Option`.
* A Python function that may raise is given the raising part of its input
  as an `Except` value (the exception text), mirroring the `try/except`
  structure of the source.
* The Python field name `end` is a Lean keyword and is rendered `stop`.
* Python string primitives (`str.split`, `str.strip`, `str.startswith`,
  `int(..)`, `str.join`) are defined below by structural recursion on the
  character list of the string, so that every model function evaluates
  inside the kernel.

The module `transcribe.py` defines several functions twice (the file keeps
near-duplicate revisions of the orchestrator); at run time the *last*
definition of each name is bound.  Where the two revisions differ
(`validate_cookies`), both are embedded, the dead first revision under a
`_v1` suffix.
-/

namespace YT

/-! ### Python string primitives -/

/-- `str.split(sep)` for a one-character separator, Python semantics:
`"".split(c) = [""]`, separators at the ends produce empty fields. -/
def splitOnChar (sep : Char) : List Char → List (List Char)
  | [] => [[]]
  | c :: cs =>
    if c = sep then [] :: splitOnChar sep cs
    else
      match splitOnChar sep cs with
      | [] => [[c]]
      | l :: ls => (c :: l) :: ls

/-- `s.split(sep)` for a one-character separator. -/
def pySplit (sep : Char) (s : String) : List String :=
  (splitOnChar sep s.data).map (fun cs => ⟨cs⟩)

/-- `str.strip()` on a character list. -/
def trimChars (cs : List Char) : List Char :=
  ((cs.dropWhile Char.isWhitespace).reverse.dropWhile Char.isWhitespace).reverse

/-- `s.strip()`. -/
def pyStrip (s : String) : String := ⟨trimChars s.data⟩

/-- `s.startswith(c)` for a one-character argument. -/
def pyStartsWith (c : Char) (s : String) : Bool :=
  match s.data with
  | [] => false
  | d :: _ => d = c

/-- Value of a non-empty all-digit character list, `none` otherwise. -/
def digitsVal : List Char → Option Nat
  | [] => none
  | cs => cs.foldl (fun acc c =>
      match acc with
      | none => none
      | some n => if c.isDigit then some (n * 10 + (c.toNat - 48)) else none)
      (some 0)

/-- Python `int(s)` (`None` models a raised `ValueError`): surrounding
whitespace is tolerated, an optional sign precedes the digits.
(Python additionally accepts underscore digit separators; the cookie
expirations this is applied to are plain digit strings.) -/
def pyInt? (s : String) : Option Int :=
  match trimChars s.data with
  | '-' :: rest => (digitsVal rest).map (fun n => -(n : Int))
  | '+' :: rest => (digitsVal rest).map (fun n => (n : Int))
  | cs => (digitsVal cs).map (fun n => (n : Int))

/-- `sep.join(xs)` on character lists. -/
def joinChars (sep : List Char) : List (List Char) → List Char
  | [] => []
  | [x] => x
  | x :: xs => x ++ sep ++ joinChars sep xs

/-- `sep.join(xs)`. -/
def pyJoin (sep : String) (xs : List String) : String :=
  ⟨joinChars sep.data (xs.map String.data)⟩

/-- Decimal digits of a natural number (fuel-based so that the kernel can
evaluate it; the fuel `n + 1` always suffices). -/
def natDigitsAux : Nat → Nat → List Char
  | 0, _ => []
  | fuel + 1, n =>
    if n < 10 then [Char.ofNat (48 + n)]
    else natDigitsAux fuel (n / 10) ++ [Char.ofNat (48 + n % 10)]

/-- Python `str(n)` for a natural number. -/
def pyNatRepr (n : Nat) : String := ⟨natDigitsAux (n + 1) n⟩

/-- Python `str(i)` for an integer. -/
def pyIntRepr : Int → String
  | .ofNat n => pyNatRepr n
  | .negSucc n => ⟨'-' :: (pyNatRepr (n + 1)).data⟩

/-- Python `f"{i:0wd}"`: the decimal representation left-padded with `'0'`
to width `w`. -/
def padInt (w : Nat) (i : Int) : String :=
  let s := pyIntRepr i
  if s.data.length < w then ⟨List.replicate (w - s.data.length) '0' ++ s.data⟩
  else s

/-! ### Data model -/

/-- A word-level timestamp entry, source shape
`{"word": .., "start": .., "end": .., "probability": ..}`.
(For WhisperX-aligned words the source reads the key `"score"` as the
fallback for `"probability"`; both are modelled by the single field
`probability`.) -/
structure Word where
  word : String
  start : ℚ
  stop : ℚ
  probability : ℚ
deriving Repr, DecidableEq

/-- A transcript segment, source shape
`{"id": .., "start": .., "end": .., "text": .., "words": [..]}`.
`no_speech_prob` is read by `generate_final_results` via
`.get("no_speech_prob", 0.0)`; backends that do not set the key are
modelled by the default value `0`.  A missing and an empty `words` key
behave identically in every reader (`segment.get("words", [])` followed
by a truthiness test), so `words` is a plain list. -/
structure Segment where
  id : Int
  start : ℚ
  stop : ℚ
  text : String
  words : List Word
  no_speech_prob : ℚ
deriving Repr, DecidableEq

/-- The result dict produced by every transcription backend, restricted to
the keys read by the fallback engine's validity gate
(`segments`, `language`, `duration`; the remaining keys
`language_probability` and `text` are never read by a verified
component). -/
structure TranscriptionResult where
  segments : List Segment
  language : String
  duration : ℚ
deriving Repr, DecidableEq

/-! ### Credential Provisioner (cookie validation) -/

/-- `validate_cookies` as *first* defined (transcribe.py:14-31): keep a
record only if it has at least 7 tab-separated fields and field 5 parses
as an integer strictly greater than `time.time()` (the `now` argument);
return the retained records joined by newlines, or `None` if none remain.

DEAD CODE at run time: the module later rebinds the name
`validate_cookies` (transcribe.py:676 and again at 1722), so this first
revision is shadowed; it is embedded because it is the only revision that
implements the expiry rule the spec states. -/
def validate_cookies_v1 (cookie_content : String) (now : ℚ) : Option String :=
  let lines := pySplit '\n' (pyStrip cookie_content)
  let valid_cookies := lines.filter (fun line =>
    (pyStrip line != "") && !(pyStartsWith '#' line) &&
      (let parts := pySplit '\t' line
       decide (7 ≤ parts.length) &&
         (match pyInt? (parts.getD 4 "") with
          | some expires_ts => decide (now < (expires_ts : ℚ))
          | none => false)))
  if valid_cookies ≠ [] then some (pyJoin "\n" valid_cookies) else none

/-- `validate_cookies` as bound at run time (transcribe.py:1722-1753,
identical to the revision at 676): counts a line as valid when, after
stripping, it is non-empty, not a `#` comment, has at least 7
tab-separated fields, and field 5 parses as an integer that is
*strictly positive* (the source comment reads `# Not expired`, but the
comparison is `expiration > 0`, not against the current time); returns
whether at least one such line exists. -/
def validate_cookies (cookie_content : String) : Bool :=
  if cookie_content = "" ∨ pyStrip cookie_content = "" then false
  else
    let lines := pySplit '\n' (pyStrip cookie_content)
    let valid_lines := lines.countP (fun raw =>
      let line := pyStrip raw
      !(line = "" || pyStartsWith '#' line) &&
        (let parts := pySplit '\t' line
         decide (7 ≤ parts.length) &&
           (match pyInt? (parts.getD 4 "") with
            | some expiration => decide (0 < expiration)
            | none => false)))
    valid_lines != 0

/-- `create_cookie_file` as bound at run time (transcribe.py:1769-1823).
The base64 probe `decode_cookie_content` is modelled as pre-applied: the
argument is the decoded text (the source falls back to the raw text when
base64 decoding fails).  The returned temporary file path is modelled by
the file's content: note the source writes `decoded_cookies` — the
*entire* decoded text, not only the records that passed validation.
The `file_size == 0` re-check of the source can only fire on empty
content, which the first guard already rejects. -/
def create_cookie_file (decoded_cookies : String) : Option String :=
  if decoded_cookies = "" then none
  else if validate_cookies decoded_cookies then some decoded_cookies
  else none

/-- `setup_cookie_authentication` (transcribe.py:1834-1858): Method 1 uses
the `YOUTUBE_COOKIES_CONTENT` environment value (here already decoded, see
`create_cookie_file`); on failure Method 2 falls back to the first
pre-existing cookie file found by the glob (modelled by the
`existing_cookie_files` list). -/
def setup_cookie_authentication (env_cookie_content : Option String)
    (existing_cookie_files : List String) : Option String :=
  let method1 : Option String :=
    match env_cookie_content with
    | some c => if c = "" then none else create_cookie_file c
    | none => none
  match method1 with
  | some cookie_file => some cookie_file
  | none => existing_cookie_files.head?

/-! ### Backend Capability Prober -/

/-- The outcome of querying `torch.cuda` inside
`detect_cuda_availability`: a successful query (availability flag, device
count, device-0 name), a failed `import torch`, or any other raised
exception. -/
inductive CudaProbe where
  | result (is_available : Bool) (gpu_count : Nat) (gpu_name : String)
  | importError
  | queryError (msg : String)
deriving Repr, DecidableEq

/-- `detect_cuda_availability` (transcribe.py:78-96): returns
`(cuda_available, gpu_count, gpu_name)`; every failure path degrades to
`(False, 0, "CPU")` instead of raising. -/
def detect_cuda_availability : CudaProbe → Bool × Nat × String
  | .result true gpu_count gpu_name =>
    (true, gpu_count, if 0 < gpu_count then gpu_name else "Unknown")
  | .result false _ _ => (false, 0, "CPU")
  | .importError => (false, 0, "CPU")
  | .queryError _ => (false, 0, "CPU")

/-- One entry of the ranked service list built by
`select_optimal_transcription_service` (the human-readable `reason`
string of the source is diagnostic only and not modelled). -/
structure ServiceEntry where
  name : String
  priority : Nat
deriving Repr, DecidableEq

/-- The runtime state the prober inspects: the two API keys from the
environment and the CUDA probe outcome. -/
structure RuntimeEnv where
  groq_api_key : Option String
  openai_api_key : Option String
  cuda : CudaProbe
deriving Repr, DecidableEq

/-- `select_optimal_transcription_service` (transcribe.py:1913-1970).
`stat_size_mb` is the outcome of `audio_path.stat()` (the only statement
of the guarded block that can raise); on an exception the function
returns `("faster_whisper_cpu", [])`.  The candidate list is built in
priority order and then sorted by priority (`services.sort`, modelled by
the stable `insertionSort`); the selected service is the head of the
sorted list. -/
def select_optimal_transcription_service (stat_size_mb : Except String ℚ)
    (env : RuntimeEnv) : String × List ServiceEntry :=
  match stat_size_mb with
  | .error _ => ("faster_whisper_cpu", [])
  | .ok file_size_mb =>
    let cuda_available := (detect_cuda_availability env.cuda).1
    let services : List ServiceEntry :=
      (if env.groq_api_key.isSome ∧ file_size_mb ≤ 20 then [⟨"groq", 1⟩] else [])
      ++ (if cuda_available then [⟨"faster_whisper_gpu", 2⟩] else [])
      ++ (if env.openai_api_key.isSome ∧ file_size_mb ≤ 25 then [⟨"openai_whisper", 3⟩] else [])
      ++ [⟨"faster_whisper_cpu", 4⟩]
    let sorted := services.insertionSort (fun a b => a.priority ≤ b.priority)
    ((sorted.headD ⟨"faster_whisper_cpu", 4⟩).name, sorted)

/-! ### Transcription Fallback Engine -/

/-- `validate_transcription_result` (transcribe.py:400-424).  Returns the
pair `(is_valid, message)`.  On the structured model the
`required_fields` presence loop of the source always passes, because a
`TranscriptionResult` value always carries the three keys. -/
def validate_transcription_result : Option TranscriptionResult → Bool × String
  | none => (false, "Result is None or empty")
  | some result =>
    if result.segments = [] then
      (false, "No segments found in transcription")
    else
      let total_words := (result.segments.map (fun s => s.words.length)).sum
      if total_words = 0 then
        (false, "No words found in transcription")
      else if result.duration ≤ 0 then
        (false, "Invalid duration")
      else
        (true, "Valid transcription")

/-- One entry of the attempt log built by `log_transcription_attempt`
(transcribe.py:426-448), restricted to the fields the claims are about
(service name, success flag, error message).  The wall-clock fields
(`timestamp`, `duration_seconds`) and the per-run constants
(`audio_size_mb`, `gpu_available`) carry no information the claims
mention. -/
structure AttemptEntry where
  service : String
  success : Bool
  error : Option String
deriving Repr, DecidableEq

/-- The outcome of invoking one backend's transcribe capability:
either a raised exception (`error` with the message) or a returned
result dict. -/
abbrev ServiceOutcome := Except String TranscriptionResult

/-- The `for service_name, service_func in fallback_chain` loop of
`transcribe_with_fallback_chain` (transcribe.py:2085-2130).
State threaded through the loop: `transcription_result` (`tr`) and the
accumulated attempt log; `used_service` is only ever set immediately
before `break`, so it is returned by the breaking branch and is `none`
on every other exit. -/
def runFallbackLoop (selected : String) :
    List (String × ServiceOutcome) → Option TranscriptionResult →
    List AttemptEntry →
    Option TranscriptionResult × Option String × List AttemptEntry
  | [], tr, log => (tr, none, log)
  | (service_name, outcome) :: rest, tr, log =>
    if service_name = selected ∨ tr = none then
      match outcome with
      | .error e =>
        -- `except Exception as e`: log the failed attempt and continue
        runFallbackLoop selected rest tr (log ++ [⟨service_name, false, some e⟩])
      | .ok r =>
        if (validate_transcription_result (some r)).1 then
          -- first valid result: log success, set `used_service`, break
          (some r, some service_name, log ++ [⟨service_name, true, none⟩])
        else
          runFallbackLoop selected rest (some r)
            (log ++ [⟨service_name, false,
              some (validate_transcription_result (some r)).2⟩])
    else
      runFallbackLoop selected rest tr log

/-- The tail of `transcribe_with_fallback_chain` over an arbitrary chain:
run the loop from the empty state, then
`if transcription_result and used_service: return transcription_result`,
`else: raise Exception("All transcription services failed")`.
(A returned result dict is a non-empty dict and hence truthy, so the
Python truthiness test on `transcription_result` is `isSome`.) -/
def run_fallback_services (selected : String)
    (chain : List (String × ServiceOutcome)) :
    Except String TranscriptionResult × List AttemptEntry :=
  match runFallbackLoop selected chain none [] with
  | (some r, some _, log) => (.ok r, log)
  | (_, _, log) => (.error "All transcription services failed", log)

/-- The invocation outcome of each of the four backends of the fixed
`fallback_chain` list (transcribe.py:2074-2079).  A backend whose
precondition is missing raises when invoked (e.g. the Groq client
constructor raises when `GROQ_API_KEY` is absent), which is an `error`
outcome. -/
structure ServiceOutcomes where
  groq : ServiceOutcome
  faster_whisper_gpu : ServiceOutcome
  openai_whisper : ServiceOutcome
  faster_whisper_cpu : ServiceOutcome

/-- The fixed `fallback_chain` list literal (transcribe.py:2074-2079). -/
def fallback_chain (o : ServiceOutcomes) : List (String × ServiceOutcome) :=
  [("groq", o.groq),
   ("faster_whisper_gpu", o.faster_whisper_gpu),
   ("openai_whisper", o.openai_whisper),
   ("faster_whisper_cpu", o.faster_whisper_cpu)]

/-- `transcribe_with_fallback_chain` (transcribe.py:2058-2137): select the
optimal service, then run the fixed chain. -/
def transcribe_with_fallback_chain (stat_size_mb : Except String ℚ)
    (env : RuntimeEnv) (outcomes : ServiceOutcomes) :
    Except String TranscriptionResult × List AttemptEntry :=
  let selected_service := (select_optimal_transcription_service stat_size_mb env).1
  run_fallback_services selected_service (fallback_chain outcomes)

/-! ### Size-Aware Chunker -/

/-- A chunk produced by `chunk_audio_for_groq`: either the original input
file (the no-op and error fallbacks) or an exported slice
`[chunk_start_ms, chunk_end_ms]` of the loaded audio. -/
inductive GroqChunk where
  | original
  | piece (index : Nat) (chunk_start_ms chunk_stop_ms : Nat)
deriving Repr, DecidableEq

/-- The fixed 10-minute chunk duration of `chunk_audio_for_groq`. -/
def chunk_duration_ms : Nat := 10 * 60 * 1000

/-- `chunk_audio_for_groq` (transcribe.py:141-194).
`pydub_available` models the `import pydub` probe (`False` is the
`ImportError` branch), `load_audio` the `AudioSegment.from_file` call and
the rest of the splitting block (its exception branch also covers export
failures), returning the audio duration `len(audio)` in milliseconds.
`math.ceil(duration_ms / chunk_duration_ms)` is
`(duration_ms + chunk_duration_ms - 1) / chunk_duration_ms` on `Nat`;
`max(0, start_time - overlap_ms)` is `Nat` subtraction. -/
def chunk_audio_for_groq (file_size_mb : ℚ) (pydub_available : Bool)
    (load_audio : Except String Nat) (max_size_mb : ℚ) : List GroqChunk :=
  if !pydub_available then [.original]
  else if file_size_mb ≤ max_size_mb then [.original]
  else
    match load_audio with
    | .error _ => [.original]
    | .ok duration_ms =>
      let num_chunks := (duration_ms + (chunk_duration_ms - 1)) / chunk_duration_ms
      (List.range num_chunks).map (fun i =>
        let start_time := i * chunk_duration_ms
        let end_time := min ((i + 1) * chunk_duration_ms) duration_ms
        let chunk_start := start_time - 1000
        let chunk_stop := min duration_ms (end_time + 1000)
        .piece i chunk_start chunk_stop)

/-! ### Chunk Merger -/

/-- A per-chunk transcription result dict as consumed by
`merge_chunked_transcriptions`: every key the merger reads is optional
(`'segments' not in chunk_result` is `segments = none`; the aggregation
row reads `language`, `language_probability`, `duration` and `text` via
`.get`). -/
structure ChunkResult where
  segments : Option (List Segment)
  language : Option String
  language_probability : Option ℚ
  duration : Option ℚ
  text : Option String
deriving Repr, DecidableEq

/-- Python truthiness of a chunk-result dict: an *empty* dict is falsy.
With the merger's key set, the empty dict is the one with every key
absent. -/
def ChunkResult.isFalsy (c : ChunkResult) : Bool :=
  c.segments.isNone && c.language.isNone && c.language_probability.isNone
    && c.duration.isNone && c.text.isNone

/-- The word-timing adjustment of the merger's inner loop. -/
def shiftWord (time_offset : ℚ) (w : Word) : Word :=
  { w with start := w.start + time_offset, stop := w.stop + time_offset }

/-- The segment adjustment of the merger's inner loop: re-number, re-base
the segment timing and the word timings. -/
def adjustSegment (time_offset : ℚ) (new_id : Int) (s : Segment) : Segment :=
  { s with
    id := new_id
    start := s.start + time_offset
    stop := s.stop + time_offset
    words := s.words.map (shiftWord time_offset) }

/-- One iteration of the merger's `for chunk_idx, chunk_result in
enumerate(chunk_results)` loop over the state
`(merged_segments, segment_id_offset, time_offset)`:
a falsy (`None`/empty) chunk or one without a `segments` key is skipped;
otherwise its segments are appended adjusted, and if its segment list is
non-empty the time offset advances by `last_segment['end'] - 1.0`. -/
def mergeStep (st : List Segment × Nat × ℚ) (chunk_result : Option ChunkResult) :
    List Segment × Nat × ℚ :=
  match chunk_result with
  | none => st
  | some c =>
    if c.isFalsy then st
    else
      match c.segments with
      | none => st
      | some segs =>
        let adjusted := segs.enum.map (fun p =>
          adjustSegment st.2.2 (Int.ofNat (st.2.1 + p.1)) p.2)
        let time_offset := match segs.getLast? with
          | none => st.2.2
          | some last_segment => st.2.2 + last_segment.stop - 1
        (st.1 ++ adjusted, st.2.1 + segs.length, time_offset)

/-- `merge_chunked_transcriptions` (transcribe.py:196-244).
The whole body is one `try` block.  The loop itself tolerates falsy
entries, but the final aggregation row evaluates
`chunk_results[0].get('language', 'en')` and
`sum(chunk.get('duration', 0) for chunk in chunk_results)`, which raise
`AttributeError` as soon as any entry is `None`; the `except` branch then
returns `chunk_results[0] if chunk_results else None`.  So the result is
`chunk_results.headD none` whenever some entry is `none`, and the merged
dict otherwise. -/
def merge_chunked_transcriptions (chunk_results : List (Option ChunkResult)) :
    Option ChunkResult :=
  if chunk_results.any Option.isNone then
    chunk_results.headD none
  else
    let merged := chunk_results.foldl mergeStep ([], 0, 0)
    some {
      segments := some merged.1
      language := some (((chunk_results.headD none).bind ChunkResult.language).getD "en")
      language_probability :=
        some (((chunk_results.headD none).bind ChunkResult.language_probability).getD (19/20))
      duration := some ((chunk_results.map (fun c =>
        (c.bind ChunkResult.duration).getD 0)).sum)
      text := some (pyJoin " " (chunk_results.filterMap (fun c =>
        match c.bind ChunkResult.text with
        | some t => if t = "" then none else some t
        | none => none))) }

/-- The merger's segment pass as the specification describes it: walk the
chunks in order; a chunk that produced no result or no `segments` key is
skipped and advances neither offset; otherwise its segments are re-based
by the running time offset and re-numbered densely, and the time offset
for the next chunk advances by (last segment end of this chunk) − 1.0
(the one-second overlap). -/
def specMergeSegments : List (Option ChunkResult) → Nat → ℚ → List Segment
  | [], _, _ => []
  | none :: rest, id_offset, time_offset =>
    specMergeSegments rest id_offset time_offset
  | some c :: rest, id_offset, time_offset =>
    match c.segments with
    | none => specMergeSegments rest id_offset time_offset
    | some segs =>
      segs.enum.map (fun p =>
          adjustSegment time_offset (Int.ofNat (id_offset + p.1)) p.2)
        ++ specMergeSegments rest (id_offset + segs.length)
            (match segs.getLast? with
             | none => time_offset
             | some last_segment => time_offset + last_segment.stop - 1)

/-! ### Backend result shaping -/

/-- A raw word as delivered by the Groq / OpenAI verbose-JSON response
(`word`, `start`, `end`; missing attributes default per `getattr`). -/
structure RawWord where
  word : String
  start : ℚ
  stop : ℚ
deriving Repr, DecidableEq

/-- The word-grouping loop shared verbatim by
`transcribe_single_chunk_with_groq` (transcribe.py:1422-1470) and
`transcribe_with_openai_whisper` (transcribe.py:1994-2039): accumulate
words into `current_segment`; a segment is emitted when it reaches 10
words or the word list ends; the per-word `probability` is the constant
`0.9` and nothing else forces a boundary. -/
def groupWordsLoop : List RawWord → List RawWord → Option ℚ → Nat → List Segment
  | [], _, _, _ => []
  | w :: rest, current_segment, segment_start, segment_id =>
    let ss := match segment_start with
      | none => w.start
      | some v => v
    let current' := current_segment ++ [w]
    if 10 ≤ current'.length ∨ rest = [] then
      { id := Int.ofNat segment_id
        start := ss
        stop := ((current'.getLast?).getD w).stop
        text := pyJoin " " (current'.map RawWord.word)
        words := current'.map (fun rw => ⟨rw.word, rw.start, rw.stop, 9/10⟩)
        no_speech_prob := 0 } :: groupWordsLoop rest [] none (segment_id + 1)
    else
      groupWordsLoop rest current' (some ss) segment_id

/-- The result-shaping step of `transcribe_single_chunk_with_groq`:
group the flat word list into segments. -/
def transcribe_single_chunk_with_groq_shape (words : List RawWord) : List Segment :=
  groupWordsLoop words [] none 0

/-- The result-shaping step of `transcribe_with_openai_whisper`
(textually identical to the Groq one in the source). -/
def transcribe_with_openai_whisper_shape (words : List RawWord) : List Segment :=
  groupWordsLoop words [] none 0

/-- The result-shaping step of `transcribe_with_faster_whisper`
(transcribe.py:1519-1545): each model segment is copied field by field
into a dict (words included when present); no regrouping of any kind is
performed. -/
def transcribe_with_faster_whisper_shape (model_segments : List Segment) :
    List Segment :=
  model_segments.map (fun s =>
    { id := s.id
      start := s.start
      stop := s.stop
      text := s.text
      words := s.words.map (fun w => ⟨w.word, w.start, w.stop, w.probability⟩)
      no_speech_prob := s.no_speech_prob })

/-! ### Result Normalizer -/

/-- The transcription dict handed to `generate_final_results`
(`aligned_data`), restricted to the keys it reads:
`.get("segments", [])` and `.get("language", "unknown")`. -/
structure AlignedData where
  segments : List Segment
  language : Option String
deriving Repr, DecidableEq

/-- One entry of the normalizer's public word list. -/
structure FinalWord where
  word : String
  start : ℚ
  stop : ℚ
  confidence : ℚ
deriving Repr, DecidableEq

/-- One subtitle word-group of the normalizer. -/
structure SrtGroup where
  text : String
  start : ℚ
  stop : ℚ
deriving Repr, DecidableEq

/-- The `metadata` object of the normalizer's output (the constant
`processedAt` JSON timestamp string of the source carries no
information and is not modelled). -/
structure FinalMetadata where
  youtubeUrl : String
  duration : ℚ
  wordCount : Nat
  language : String
  confidence : ℚ
deriving Repr, DecidableEq

/-- The normalizer's output `{words, srt, plain, metadata}`. -/
structure FinalResults where
  words : List FinalWord
  srt : String
  plain : String
  metadata : FinalMetadata
deriving Repr, DecidableEq

/-- The word-extraction loop of `generate_final_results`
(transcribe.py:1607-1630), building `words` and `all_text` in tandem:
a segment with word-level data contributes its words (text stripped,
confidence from `probability`/`score`); a segment without word-level data
but with non-empty stripped text contributes that text as a single entry
spanning the segment, with confidence `1.0 - no_speech_prob`. -/
def collectWords : List Segment → List FinalWord × List String
  | [] => ([], [])
  | s :: rest =>
    let here : List FinalWord × List String :=
      if s.words ≠ [] then
        (s.words.map (fun w => ⟨pyStrip w.word, w.start, w.stop, w.probability⟩),
         s.words.map (fun w => pyStrip w.word))
      else
        let segment_text := pyStrip s.text
        if segment_text ≠ "" then
          ([⟨segment_text, s.start, s.stop, 1 - s.no_speech_prob⟩], [segment_text])
        else ([], [])
    (here.1 ++ (collectWords rest).1, here.2 ++ (collectWords rest).2)

/-- Python float truthiness of the loop variable `current_start`
(`if not current_start:` re-assigns on both `None` and `0.0`). -/
def pyFalsy : Option ℚ → Bool
  | none => true
  | some v => v == 0

/-- The subtitle grouping loop of `generate_final_results`
(transcribe.py:1638-1652): group words by 10 words, or 5 seconds from the
group's start, or the end of the word list. -/
def srtGroupLoop : List FinalWord → List String → Option ℚ → List SrtGroup
  | [], _, _ => []
  | w :: rest, current_group, current_start =>
    let cs := if pyFalsy current_start then w.start else current_start.getD 0
    let group' := current_group ++ [w.word]
    if 10 ≤ group'.length ∨ 5 ≤ w.stop - cs ∨ rest = [] then
      ⟨pyStrip (pyJoin " " group'), cs, w.stop⟩ :: srtGroupLoop rest [] none
    else
      srtGroupLoop rest group' (some cs)

/-- Python `x % m` for floats with a positive modulus. -/
def pyMod (x m : ℚ) : ℚ := x - m * ⌊x / m⌋

/-- `format_timestamp` (transcribe.py:1682-1688): `HH:MM:SS,mmm` with
zero-padded fields (`int(..)` truncation coincides with `⌊..⌋` on the
non-negative values produced here). -/
def format_timestamp (seconds : ℚ) : String :=
  let hours : Int := ⌊seconds / 3600⌋
  let minutes : Int := ⌊pyMod seconds 3600 / 60⌋
  let secs : Int := ⌊pyMod seconds 60⌋
  let millis : Int := ⌊pyMod seconds 1 * 1000⌋
  padInt 2 hours ++ ":" ++ padInt 2 minutes ++ ":" ++ padInt 2 secs
    ++ "," ++ padInt 3 millis

/-- `generate_final_results` (transcribe.py:1600-1680). -/
def generate_final_results (aligned_data : AlignedData) (youtube_url : String) :
    FinalResults :=
  let wt := collectWords aligned_data.segments
  let words := wt.1
  let all_text := wt.2
  let word_groups := srtGroupLoop words [] none
  let srt_lines := word_groups.enum.flatMap (fun p =>
    [pyNatRepr (p.1 + 1),
     format_timestamp p.2.start ++ " --> " ++ format_timestamp p.2.stop,
     p.2.text,
     ""])
  let total_duration : ℚ := match words.map FinalWord.stop with
    | [] => 0
    | e :: es => es.foldl max e
  { words := words
    srt := pyJoin "\n" srt_lines
    plain := pyJoin " " all_text
    metadata := {
      youtubeUrl := youtube_url
      duration := total_duration
      wordCount := words.length
      language := aligned_data.language.getD "unknown"
      confidence := if words = [] then 0
        else (words.map FinalWord.confidence).sum / (words.length : ℚ) } }

/-! ### Shared concrete fixtures -/

/-- A segment with two timed words, used as concrete valid content. -/
def goodSegment : Segment :=
  ⟨0, 0, 2, "hello world", [⟨"hello", 0, 1, 9/10⟩, ⟨"world", 1, 2, 9/10⟩], 0⟩

/-- A concrete transcription result that passes the validity gate. -/
def goodResult : TranscriptionResult := ⟨[goodSegment], "en", 60⟩

/-! ### Helper lemmas -/

/-- If the fallback loop exits with `used_service` set, the carried result
passed the validity gate: the only exit that sets `used_service` is the
`break` taken immediately after a successful validation. -/
lemma runFallbackLoop_valid (selected : String) :
    ∀ (chain : List (String × ServiceOutcome)) (tr : Option TranscriptionResult)
      (log : List AttemptEntry) (r : TranscriptionResult) (s : String)
      (log' : List AttemptEntry),
      runFallbackLoop selected chain tr log = (some r, some s, log') →
      (validate_transcription_result (some r)).1 = true := by
  intro chain
  induction chain with
  | nil =>
    intro tr log r s log' h
    simp [runFallbackLoop] at h
  | cons hd tl ih =>
    obtain ⟨service_name, outcome⟩ := hd
    intro tr log r s log' h
    simp only [runFallbackLoop] at h
    by_cases hc : service_name = selected ∨ tr = none
    · rw [if_pos hc] at h
      cases outcome with
      | error e => exact ih _ _ _ _ _ h
      | ok r' =>
        dsimp only at h
        by_cases hv : (validate_transcription_result (some r')).1 = true
        · rw [if_pos hv] at h
          obtain ⟨h1, h2, h3⟩ := Prod.mk.injEq .. ▸ h
          cases h1
          exact hv
        · rw [if_neg hv] at h
          exact ih _ _ _ _ _ h
    · rw [if_neg hc] at h
      exact ih _ _ _ _ _ h

/-- Running the fallback loop over a chain whose prefix consists of
backends that raise, followed by a backend returning a valid result:
every prefix backend is attempted and logged as a failure, the valid
backend is logged as a success, and the loop breaks there with its
result. -/
lemma runFallbackLoop_prefix (selected : String) (name : String)
    (r : TranscriptionResult) (post : List (String × ServiceOutcome))
    (hv : (validate_transcription_result (some r)).1 = true) :
    ∀ (pre : List (String × ServiceOutcome)) (log : List AttemptEntry),
      (∀ p ∈ pre, ∃ e, p.2 = Except.error e) →
      ∃ entries,
        runFallbackLoop selected (pre ++ (name, Except.ok r) :: post) none log =
          (some r, some name, log ++ entries ++ [⟨name, true, none⟩])
        ∧ entries.map (fun a => (a.service, a.success)) =
            pre.map (fun p => (p.1, false)) := by
  intro pre
  induction pre with
  | nil =>
    intro log _
    refine ⟨[], ?_, rfl⟩
    simp only [List.nil_append, runFallbackLoop]
    rw [if_pos (Or.inr trivial), if_pos hv]
    simp
  | cons p pre' ih =>
    intro log hpre
    obtain ⟨e, he⟩ := hpre p (List.mem_cons_self _ _)
    obtain ⟨n', o'⟩ := p
    dsimp only at he
    subst he
    simp only [List.cons_append, runFallbackLoop]
    rw [if_pos (Or.inr trivial)]
    obtain ⟨entries', h1, h2⟩ :=
      ih (log ++ [⟨n', false, some e⟩]) (fun q hq => hpre q (List.mem_cons_of_mem _ hq))
    refine ⟨⟨n', false, some e⟩ :: entries', ?_, ?_⟩
    · simp only [List.append_eq]
      rw [h1]
      simp
    · simp [h2]

/-! ### Claims -/

/-- C2: a transcription result is accepted by the validity gate iff its
segment list is non-empty, the total word count over all segments is
positive and its duration is positive; and every result the fallback
engine returns passed that gate (the gate is never bypassed). -/
theorem c2_validity_gate :
    (∀ r : TranscriptionResult,
      (validate_transcription_result (some r)).1 = true ↔
        (r.segments ≠ [] ∧ 0 < (r.segments.map (fun s => s.words.length)).sum ∧
          0 < r.duration))
    ∧ (∀ (selected : String) (chain : List (String × ServiceOutcome))
        (r : TranscriptionResult) (log : List AttemptEntry),
        run_fallback_services selected chain = (Except.ok r, log) →
        (validate_transcription_result (some r)).1 = true) := by
  constructor
  · intro r
    simp only [validate_transcription_result]
    by_cases h1 : r.segments = []
    · simp [h1]
    · rw [if_neg h1]
      by_cases h2 : (r.segments.map (fun s => s.words.length)).sum = 0
      · simp [h2]
      · rw [if_neg h2]
        by_cases h3 : r.duration ≤ 0
        · simp [h3, h1, h2, not_lt.mpr h3]
        · simp [h3, h1, Nat.pos_of_ne_zero h2, lt_of_not_le h3]
  · intro selected chain r log h
    rw [run_fallback_services] at h
    rcases hres : runFallbackLoop selected chain none [] with ⟨tr, us, lg⟩
    rw [hres] at h
    match tr, us, h with
    | some r', some s, h =>
      obtain ⟨h1, _⟩ := Prod.mk.injEq .. ▸ h
      cases h1
      exact runFallbackLoop_valid selected chain none [] _ _ _ hres

/-- Witness for C2: the engine run on a one-backend chain returns
`goodResult`, which therefore satisfies the validity gate. -/
theorem c2_validity_gate_witness :
    (validate_transcription_result (some goodResult)).1 = true :=
  c2_validity_gate.2 "groq" [("groq", Except.ok goodResult)] goodResult
    [⟨"groq", true, none⟩] (by rfl)

/-- The runtime state of the C1 scenario: no Groq key (so the Groq
backend is ineligible and its invocation raises), CUDA available, an
OpenAI key present. -/
def c1Env : RuntimeEnv := ⟨none, some "sk-openai", .result true 1 "Tesla T4"⟩

/-- The invocation outcomes of the C1 scenario: B1 = `groq` raises (its
client constructor fails without an API key), B2 = `faster_whisper_gpu`
raises, B3 = `openai_whisper` returns a valid result, and the CPU
fallback is never reached. -/
def c1Outcomes : ServiceOutcomes :=
  ⟨Except.error "The api_key client option must be set",
   Except.error "CUDA out of memory",
   Except.ok goodResult,
   Except.error "unreached"⟩

/-- Counterexample to C1: with B1 = `groq` ineligible (the prober's
ranking omits it), B2 = `faster_whisper_gpu` eligible but failing and
B3 = `openai_whisper` eligible and succeeding, the engine does return
B3's result — but the attempt log has **three** entries and its first
entry is for the ineligible B1, which *was* invoked: the loop guard
`service_name == selected_service or transcription_result is None` lets
every backend through while no result has been produced, so the prober's
eligibility ranking never prevents an attempt. -/
theorem c1_counterexample :
    ((select_optimal_transcription_service (Except.ok 10) c1Env).2.map
        ServiceEntry.name =
      ["faster_whisper_gpu", "openai_whisper", "faster_whisper_cpu"])
    ∧ (transcribe_with_fallback_chain (Except.ok 10) c1Env c1Outcomes).1 =
        Except.ok goodResult
    ∧ (transcribe_with_fallback_chain (Except.ok 10) c1Env c1Outcomes).2.map
        (fun a => (a.service, a.success)) =
        [("groq", false), ("faster_whisper_gpu", false), ("openai_whisper", true)] := by
  refine ⟨?_, ?_, ?_⟩ <;> rfl

/-- C1 (amended): the engine attempts backends in the fixed chain order
whether or not the prober ranked them eligible (an ineligible backend's
invocation raises and is logged as a failed attempt); when every earlier
backend raises and a backend returns a valid result, the engine stops
there, returns that result, and the attempt log has exactly one entry
per attempted backend — the failing prefix in order, then the success.
In the B1/B2/B3 scenario the log therefore has three entries
(B1 failure, B2 failure, B3 success), not two. -/
theorem c1_amended (selected : String) (pre post : List (String × ServiceOutcome))
    (name : String) (r : TranscriptionResult)
    (hpre : ∀ p ∈ pre, ∃ e, p.2 = Except.error e)
    (hv : (validate_transcription_result (some r)).1 = true) :
    (run_fallback_services selected (pre ++ (name, Except.ok r) :: post)).1 =
      Except.ok r
    ∧ (run_fallback_services selected (pre ++ (name, Except.ok r) :: post)).2.map
        (fun a => (a.service, a.success)) =
        pre.map (fun p => (p.1, false)) ++ [(name, true)] := by
  obtain ⟨entries, h1, h2⟩ := runFallbackLoop_prefix selected name r post hv pre [] hpre
  rw [run_fallback_services, h1]
  exact ⟨rfl, by simp [h2]⟩

/-- Witness for C1 (amended), at the concrete B1/B2/B3 scenario chain. -/
theorem c1_amended_witness :
    (run_fallback_services "faster_whisper_gpu"
        ([("groq", Except.error "no key"),
          ("faster_whisper_gpu", Except.error "CUDA out of memory")] ++
          ("openai_whisper", Except.ok goodResult) ::
          [("faster_whisper_cpu", Except.error "unreached")])).1 =
      Except.ok goodResult
    ∧ (run_fallback_services "faster_whisper_gpu"
        ([("groq", Except.error "no key"),
          ("faster_whisper_gpu", Except.error "CUDA out of memory")] ++
          ("openai_whisper", Except.ok goodResult) ::
          [("faster_whisper_cpu", Except.error "unreached")])).2.map
        (fun a => (a.service, a.success)) =
        [("groq", false), ("faster_whisper_gpu", false)] ++ [("openai_whisper", true)] :=
  c1_amended "faster_whisper_gpu"
    [("groq", Except.error "no key"),
     ("faster_whisper_gpu", Except.error "CUDA out of memory")]
    [("faster_whisper_cpu", Except.error "unreached")]
    "openai_whisper" goodResult
    (by intro p hp; fin_cases hp <;> exact ⟨_, rfl⟩)
    (by rfl)

/-- The candidate list built by the prober, in declaration order
(which is priority order). -/
def proberCandidates (file_size_mb : ℚ) (env : RuntimeEnv) : List ServiceEntry :=
  (if env.groq_api_key.isSome ∧ file_size_mb ≤ 20 then [⟨"groq", 1⟩] else [])
  ++ (if (detect_cuda_availability env.cuda).1 then [⟨"faster_whisper_gpu", 2⟩] else [])
  ++ (if env.openai_api_key.isSome ∧ file_size_mb ≤ 25 then [⟨"openai_whisper", 3⟩] else [])
  ++ [⟨"faster_whisper_cpu", 4⟩]

/-- The prober's sort is the identity on its candidate list (the list is
built in priority order), so the ranked list is the eligibility-filtered
concatenation and the selected service is its head. -/
lemma select_services_eq (file_size_mb : ℚ) (env : RuntimeEnv) :
    select_optimal_transcription_service (Except.ok file_size_mb) env =
      (((proberCandidates file_size_mb env).headD ⟨"faster_whisper_cpu", 4⟩).name,
        proberCandidates file_size_mb env) := by
  dsimp only [select_optimal_transcription_service, proberCandidates]
  split_ifs <;> rfl

/-- C7: the prober ranks `groq` (eligible only with a key and ≤ 20 MB)
first, then `faster_whisper_gpu` (only with an accelerator), then
`openai_whisper` (only with a key and ≤ 25 MB), then the always-eligible
`faster_whisper_cpu`; a 30 MB asset excludes `groq`; with an accelerator
present the accelerated backend is then ranked first; ranking never
throws — a `stat` failure returns the CPU fallback, and every CUDA
detection failure degrades to `(False, 0, "CPU")`. -/
theorem c7_backend_ranking :
    (∀ (file_size_mb : ℚ) (env : RuntimeEnv),
      (select_optimal_transcription_service (Except.ok file_size_mb) env).2 =
        proberCandidates file_size_mb env)
    ∧ (∀ env : RuntimeEnv,
        "groq" ∉ ((select_optimal_transcription_service (Except.ok 30) env).2.map
          ServiceEntry.name))
    ∧ (∀ (gk okey : String) (n : Nat) (nm : String),
        (select_optimal_transcription_service (Except.ok 30)
          ⟨some gk, some okey, .result true n nm⟩).1 = "faster_whisper_gpu")
    ∧ (∀ (e : String) (env : RuntimeEnv),
        select_optimal_transcription_service (Except.error e) env =
          ("faster_whisper_cpu", []))
    ∧ (∀ m, detect_cuda_availability (.queryError m) = (false, 0, "CPU"))
    ∧ detect_cuda_availability .importError = (false, 0, "CPU") := by
  refine ⟨?_, ?_, ?_, ?_, ?_, rfl⟩
  · intro s env
    rw [select_services_eq]
  · intro env
    rw [select_services_eq]
    have h20 : ¬((30 : ℚ) ≤ 20) := by norm_num
    have h25 : ¬((30 : ℚ) ≤ 25) := by norm_num
    simp only [proberCandidates, h20, and_false, if_false]
    by_cases hc : (detect_cuda_availability env.cuda).1 = true <;>
      simp [hc, h25]
  · intro gk okey n nm
    rw [select_services_eq]
    have h20 : ¬((30 : ℚ) ≤ 20) := by norm_num
    have h25 : ¬((30 : ℚ) ≤ 25) := by norm_num
    simp [proberCandidates, h20, h25, detect_cuda_availability]
  · intro e env
    rfl
  · intro m
    rfl

/-- Witness for C7, instantiating the 30 MB exclusion at a concrete
runtime state. -/
theorem c7_backend_ranking_witness :
    "groq" ∉ ((select_optimal_transcription_service (Except.ok 30)
      ⟨some "gsk", some "sk", .result true 1 "Tesla T4"⟩).2.map ServiceEntry.name) :=
  c7_backend_ranking.2.1 ⟨some "gsk", some "sk", .result true 1 "Tesla T4"⟩

/-- A Netscape cookie record with 7 tab-separated fields whose expiration
field is `1` — a time long in the past. -/
def expired_cookie_content : String := ".youtube.com\tTRUE\t/\tFALSE\t1\tSID\tabc"

/-- C3 (code bug): the `validate_cookies` bound at run time accepts the
expired record (its check is `expiration > 0`, though its own comment
reads `# Not expired`), so provisioning returns a credential built from
content in which **zero** records have `expiresAtUnix > now`; the
shadowed first revision `validate_cookies_v1` — the one matching the
spec and the repository's own test file `test_youtube_auth.py` (which
checks `expiration > current_time`) — correctly returns `None` on the
same input (here with `now` = 1760227200, i.e. October 2025). -/
theorem c3_expired_cookie_accepted :
    validate_cookies expired_cookie_content = true
    ∧ create_cookie_file expired_cookie_content = some expired_cookie_content
    ∧ setup_cookie_authentication (some expired_cookie_content) [] =
        some expired_cookie_content
    ∧ validate_cookies_v1 expired_cookie_content 1760227200 = none := by
  refine ⟨?_, ?_, ?_, ?_⟩ <;> decide

/-- Counterexample to C9: an oversized file whose loaded audio has zero
duration produces `ceil(0 / chunkDuration) = 0` chunks, so the chunker
returns the **empty** list — neither the original file nor any chunk —
falsifying "the caller always receives a non-empty chunk list". -/
theorem c9_counterexample :
    chunk_audio_for_groq 21 true (Except.ok 0) 20 = [] := by rfl

/-- C9 (amended): the chunker never raises; it returns the original file
as the single chunk when `pydub` is unavailable, when the file is within
the size limit, and when loading/splitting fails; and in the remaining
splitting path the chunk list is non-empty **provided the loaded audio
has positive duration** (at zero duration it is empty). -/
theorem c9_amended :
    (∀ (file_size_mb : ℚ) (load : Except String Nat) (max_size_mb : ℚ),
      chunk_audio_for_groq file_size_mb false load max_size_mb = [.original])
    ∧ (∀ (file_size_mb : ℚ) (p : Bool) (load : Except String Nat) (max_size_mb : ℚ),
        file_size_mb ≤ max_size_mb →
        chunk_audio_for_groq file_size_mb p load max_size_mb = [.original])
    ∧ (∀ (file_size_mb : ℚ) (p : Bool) (e : String) (max_size_mb : ℚ),
        chunk_audio_for_groq file_size_mb p (Except.error e) max_size_mb = [.original])
    ∧ (∀ (file_size_mb : ℚ) (p : Bool) (duration_ms : Nat) (max_size_mb : ℚ),
        0 < duration_ms →
        chunk_audio_for_groq file_size_mb p (Except.ok duration_ms) max_size_mb ≠ []) := by
  refine ⟨fun _ _ _ => rfl, ?_, ?_, ?_⟩
  · intro s p load m h
    cases p
    · rfl
    · simp [chunk_audio_for_groq, h]
  · intro s p e m
    cases p
    · rfl
    · by_cases h : s ≤ m <;> simp [chunk_audio_for_groq, h]
  · intro s p d m hd
    cases p
    · simp [chunk_audio_for_groq]
    · by_cases h : s ≤ m
      · simp [chunk_audio_for_groq, h]
      · have hn : 0 < (d + (chunk_duration_ms - 1)) / chunk_duration_ms := by
          simp only [chunk_duration_ms]
          omega
        simp only [chunk_audio_for_groq, h, if_false, Bool.not_true]
        simp [List.range_eq_nil]
        omega

/-- Witness for C9 (amended): a within-limit file yields the original as
the single chunk; an oversized file of positive duration yields a
non-empty chunk list. -/
theorem c9_amended_witness :
    ((10 : ℚ) ≤ 20 ∧ chunk_audio_for_groq 10 true (Except.ok 600000) 20 = [.original])
    ∧ (0 < 600001 ∧ chunk_audio_for_groq 30 true (Except.ok 600001) 20 ≠ []) :=
  ⟨⟨by norm_num, c9_amended.2.1 10 true (Except.ok 600000) 20 (by norm_num)⟩,
   ⟨by norm_num, c9_amended.2.2.2 30 true 600001 20 (by norm_num)⟩⟩

/-- Seven raw words, one second each, spanning 0–7 s. -/
def sevenRawWords : List RawWord :=
  [⟨"w1", 0, 1⟩, ⟨"w2", 1, 2⟩, ⟨"w3", 2, 3⟩, ⟨"w4", 3, 4⟩,
   ⟨"w5", 4, 5⟩, ⟨"w6", 5, 6⟩, ⟨"w7", 6, 7⟩]

/-- The single segment the Groq shaping step produces from
`sevenRawWords`. -/
def seg7 : Segment :=
  ⟨0, 0, 7, "w1 w2 w3 w4 w5 w6 w7",
   [⟨"w1", 0, 1, 9/10⟩, ⟨"w2", 1, 2, 9/10⟩, ⟨"w3", 2, 3, 9/10⟩, ⟨"w4", 3, 4, 9/10⟩,
    ⟨"w5", 4, 5, 9/10⟩, ⟨"w6", 5, 6, 9/10⟩, ⟨"w7", 6, 7, 9/10⟩], 0⟩

/-- A faster-whisper model segment carrying twelve words. -/
def twelveWordSegment : Segment :=
  ⟨0, 0, 12, "twelve words",
   (List.range 12).map (fun i => ⟨"w", (i : ℚ), (i : ℚ) + 1, 9/10⟩), 0⟩

/-- Counterexample to C6: seven words, one second apart, are shaped by
the Groq grouping into a **single** segment spanning 7 s — more than the
5 s the claim says forces a boundary (the source groups only by 10 words
or end-of-list); and the faster-whisper shaping passes a twelve-word
model segment through unchanged, exceeding even the 10-word cap, so the
grouping rule is not applied uniformly across backends. -/
theorem c6_counterexample :
    (transcribe_single_chunk_with_groq_shape sevenRawWords).map
        (fun s => (s.words.length, s.start, s.stop)) = [(7, 0, 7)]
    ∧ ((5 : ℚ) < 7 - 0)
    ∧ transcribe_with_faster_whisper_shape [twelveWordSegment] = [twelveWordSegment]
    ∧ twelveWordSegment.words.length = 12 := by
  exact ⟨rfl, by norm_num, rfl, rfl⟩

/-- Every segment the word-grouping loop emits has at most 10 words,
provided the running accumulator holds at most 9. -/
lemma groupWordsLoop_words_le :
    ∀ (ws cur : List RawWord) (ss : Option ℚ) (sid : Nat),
      cur.length ≤ 9 → ∀ s ∈ groupWordsLoop ws cur ss sid, s.words.length ≤ 10 := by
  intro ws
  induction ws with
  | nil =>
    intro cur ss sid hcur s hs
    simp [groupWordsLoop] at hs
  | cons w rest ih =>
    intro cur ss sid hcur s hs
    simp only [groupWordsLoop] at hs
    by_cases hcond : 10 ≤ (cur ++ [w]).length ∨ rest = []
    · rw [if_pos hcond] at hs
      rcases List.mem_cons.mp hs with h1 | h1
      · subst h1
        simp only [List.length_map, List.length_append, List.length_singleton]
        omega
      · exact ih [] none (sid + 1) (by simp) s h1
    · rw [if_neg hcond] at hs
      refine ih (cur ++ [w]) _ sid ?_ s hs
      push_neg at hcond
      have := hcond.1
      simp only [List.length_append, List.length_singleton] at this ⊢
      omega

/-- C6 (amended): the Groq and OpenAI word lists are grouped into
segments of **at most 10 words** (a final shorter segment is flushed at
the end of the list); no duration-based boundary exists at this layer
(the 10-word/5-second rule appears only in the normalizer's subtitle
grouping); the two hosted backends share the identical grouping, while
the faster-whisper shaping keeps the model's own segmentation
unchanged. -/
theorem c6_amended :
    (∀ (ws : List RawWord) (s : Segment),
      s ∈ transcribe_single_chunk_with_groq_shape ws → s.words.length ≤ 10)
    ∧ (∀ ws, transcribe_with_openai_whisper_shape ws =
        transcribe_single_chunk_with_groq_shape ws)
    ∧ (∀ segs, transcribe_with_faster_whisper_shape segs = segs) := by
  refine ⟨?_, fun _ => rfl, ?_⟩
  · intro ws s hs
    exact groupWordsLoop_words_le ws [] none 0 (by simp) s hs
  · intro segs
    apply List.map_id''
    intro s
    have hw : s.words.map
        (fun w => (⟨w.word, w.start, w.stop, w.probability⟩ : Word)) = s.words :=
      List.map_id'' (fun _ => rfl) s.words
    rw [hw]

/-- Witness for C6 (amended): the segment shaped from the seven-word list
is in the Groq output and obeys the 10-word cap. -/
theorem c6_amended_witness :
    seg7 ∈ transcribe_single_chunk_with_groq_shape sevenRawWords
    ∧ seg7.words.length ≤ 10 := by
  have h : transcribe_single_chunk_with_groq_shape sevenRawWords = [seg7] := rfl
  have hmem : seg7 ∈ transcribe_single_chunk_with_groq_shape sevenRawWords := by
    rw [h]
    exact List.mem_singleton_self seg7
  exact ⟨hmem, c6_amended.1 sevenRawWords seg7 hmem⟩

/-- A falsy dict has no `segments` key. -/
lemma isFalsy_segments_none {c : ChunkResult} (h : c.isFalsy = true) :
    c.segments = none := by
  simp only [ChunkResult.isFalsy, Bool.and_eq_true, Option.isNone_iff_eq_none] at h
  exact h.1.1.1.1

/-- The merger's fold computes exactly the specification-shaped segment
pass, appended to the accumulator. -/
lemma mergeFold_eq_spec :
    ∀ (cs : List (Option ChunkResult)) (acc : List Segment) (i : Nat) (t : ℚ),
      (cs.foldl mergeStep (acc, i, t)).1 = acc ++ specMergeSegments cs i t := by
  intro cs
  induction cs with
  | nil =>
    intro acc i t
    simp [specMergeSegments]
  | cons c rest ih =>
    intro acc i t
    cases c with
    | none =>
      simp only [List.foldl_cons, mergeStep, specMergeSegments]
      exact ih acc i t
    | some cr =>
      by_cases hf : cr.isFalsy = true
      · have hseg : cr.segments = none := isFalsy_segments_none hf
        simp only [List.foldl_cons, mergeStep, hf, if_true, hseg, specMergeSegments]
        exact ih acc i t
      · cases hseg : cr.segments with
        | none =>
          simp only [List.foldl_cons, mergeStep, hf, Bool.false_eq_true, if_false,
            hseg, specMergeSegments]
          exact ih acc i t
        | some segs =>
          simp only [List.foldl_cons, mergeStep, hf, Bool.false_eq_true, if_false,
            hseg, specMergeSegments]
          rw [ih]
          simp [List.append_assoc]

/-- The segments produced by the specification-shaped merge pass carry
the densely increasing ids `i, i+1, ...`. -/
lemma specMergeSegments_ids :
    ∀ (cs : List (Option ChunkResult)) (i : Nat) (t : ℚ),
      (specMergeSegments cs i t).map Segment.id =
        (List.range (specMergeSegments cs i t).length).map
          (fun k => Int.ofNat (i + k)) := by
  intro cs
  induction cs with
  | nil =>
    intro i t
    simp [specMergeSegments]
  | cons c rest ih =>
    intro i t
    cases c with
    | none =>
      simp only [specMergeSegments]
      exact ih i t
    | some cr =>
      cases hseg : cr.segments with
      | none =>
        simp only [specMergeSegments, hseg]
        exact ih i t
      | some segs =>
        simp only [specMergeSegments, hseg]
        rw [List.map_append, List.map_map, List.length_append]
        have h1 : segs.enum.map
            (Segment.id ∘ fun p => adjustSegment t (Int.ofNat (i + p.1)) p.2) =
            (List.range segs.length).map (fun k => Int.ofNat (i + k)) := by
          have : (Segment.id ∘ fun p : Nat × Segment =>
              adjustSegment t (Int.ofNat (i + p.1)) p.2) =
              (fun k => Int.ofNat (i + k)) ∘ Prod.fst := rfl
          rw [this, ← List.map_map, List.enum_map_fst]
        rw [h1, ih]
        have hlen : (segs.enum.map (fun p =>
            adjustSegment t (Int.ofNat (i + p.1)) p.2)).length = segs.length := by
          simp
        rw [hlen, List.range_add, List.map_append, List.map_map]
        congr 1
        apply List.map_congr_left
        intro k _
        simp only [Function.comp_apply]
        congr 1
        omega

/-- The chunk whose content the merger drops in the C4 counterexample. -/
def goodChunk : ChunkResult :=
  ⟨some [goodSegment], some "en", some (19/20), some 2, some "hello world"⟩

/-- Counterexample to C4: a chunk that produced **no result** (`None`) is
not skipped — it makes the merger's final aggregation raise
(`None.get(..)`), and the `except` branch returns the *first* list
element instead of the merged timeline; on `[None, goodChunk]` the
merger returns `None`, silently discarding `goodChunk`'s segments. -/
theorem c4_counterexample :
    merge_chunked_transcriptions [none, some goodChunk] = none
    ∧ goodChunk.segments = some [goodSegment]
    ∧ [goodSegment] ≠ [] := by
  exact ⟨rfl, rfl, by simp⟩

/-- C4 (amended): for chunk lists in which every chunk produced a result
dict, the merger returns a merged result whose segment list is the
claim's walk — a chunk whose dict is empty or lacks a `segments` key is
skipped and advances neither offset, every other chunk's segments are
re-based by the accumulated offset which then advances by
(last segment end) − 1.0 — and segment ids are renumbered densely from
0.  (A `None` entry instead makes the merger return the first list
element, see the counterexample.) -/
theorem c4_amended (cs : List (Option ChunkResult)) (h : ∀ c ∈ cs, c ≠ none) :
    ∃ mr, merge_chunked_transcriptions cs = some mr
      ∧ mr.segments = some (specMergeSegments cs 0 0)
      ∧ (specMergeSegments cs 0 0).map Segment.id =
          (List.range (specMergeSegments cs 0 0).length).map Int.ofNat := by
  have hnone : cs.any Option.isNone = false := by
    rw [List.any_eq_false]
    intro c hc
    simp only [Option.isNone_iff_eq_none]
    exact h c hc
  rw [merge_chunked_transcriptions.eq_def, hnone]
  simp only [Bool.false_eq_true, if_false]
  refine ⟨_, rfl, ?_, ?_⟩
  · have := mergeFold_eq_spec cs [] 0 0
    simp only [List.nil_append] at this
    exact congrArg some this
  · have := specMergeSegments_ids cs 0 0
    simpa using this

/-- Witness for C4 (amended), on a concrete two-chunk list. -/
theorem c4_amended_witness :
    ∃ mr, merge_chunked_transcriptions [some goodChunk, some goodChunk] = some mr
      ∧ mr.segments = some (specMergeSegments [some goodChunk, some goodChunk] 0 0)
      ∧ (specMergeSegments [some goodChunk, some goodChunk] 0 0).map Segment.id =
          (List.range (specMergeSegments [some goodChunk, some goodChunk] 0 0).length).map
            Int.ofNat :=
  c4_amended [some goodChunk, some goodChunk]
    (by intro c hc; fin_cases hc <;> simp)

/-! ### C5: merged word-timestamp monotonicity -/

/-- The start timestamps of a segment's words, in order. -/
def segmentWordStarts (s : Segment) : List ℚ := s.words.map Word.start

/-- The start timestamps of all words of a segment list, in order. -/
def wordStartsOf (segs : List Segment) : List ℚ := segs.flatMap segmentWordStarts

/-- The start timestamps of all words of a chunk result. -/
def chunkWordStarts (c : ChunkResult) : List ℚ := wordStartsOf (c.segments.getD [])

/-- The end of a chunk's last segment (`0` when there is none) — the
quantity the merger subtracts one second from to advance its offset. -/
def lastSegEnd (c : ChunkResult) : ℚ :=
  match (c.segments.getD []).getLast? with
  | none => 0
  | some s => s.stop

/-- The total number of words of a chunk result. -/
def chunkWordCount (c : ChunkResult) : Nat :=
  ((c.segments.getD []).map (fun s => s.words.length)).sum

/-- The hypotheses of the amended chunk/merge round-trip: the chunk has a
segment list, at least one word, chunk-locally ordered non-negative word
starts, and its last segment extends to at least one second past every
word start (the shape the 10-minute/1-second-overlap chunker yields when
each chunk is transcribed to its boundary). -/
def WellFormedChunk (c : ChunkResult) : Prop :=
  c.segments ≠ none
  ∧ chunkWordStarts c ≠ []
  ∧ List.Chain' (· ≤ ·) (chunkWordStarts c)
  ∧ (∀ x ∈ chunkWordStarts c, 0 ≤ x)
  ∧ (∀ x ∈ chunkWordStarts c, x ≤ lastSegEnd c - 1)

/-- A chunk whose single word ends at 0.5 s, its segment ending there
too. -/
def shortChunkA : ChunkResult :=
  ⟨some [⟨0, 0, 1/2, "a", [⟨"a", 0, 1/2, 9/10⟩], 0⟩],
   some "en", some (19/20), some (1/2), some "a"⟩

/-- A chunk whose single word spans local time 0–0.3 s. -/
def shortChunkB : ChunkResult :=
  ⟨some [⟨0, 0, 3/10, "b", [⟨"b", 0, 3/10, 9/10⟩], 0⟩],
   some "en", some (19/20), some (3/10), some "b"⟩

/-- Counterexample to C5: two internally time-ordered chunks describing
non-overlapping consecutive audio (chunk A spans source time 0–0.5 s,
chunk B the 0.3 s after it).  The merger advances the offset by
`0.5 − 1.0 = −0.5`, so the merged word starts are `[0, −0.5]` — **not**
monotonically non-decreasing across the chunk boundary (the word count,
2, is preserved).  The `−1.0` overlap compensation assumes every chunk's
last segment extends at least one second past its words. -/
theorem c5_counterexample :
    List.Chain' (· ≤ ·) (chunkWordStarts shortChunkA)
    ∧ List.Chain' (· ≤ ·) (chunkWordStarts shortChunkB)
    ∧ wordStartsOf (((merge_chunked_transcriptions
        [some shortChunkA, some shortChunkB]).bind ChunkResult.segments).getD []) =
        [0, -(1/2)]
    ∧ ¬ List.Chain' (· ≤ ·) [(0 : ℚ), -(1/2)]
    ∧ ((((merge_chunked_transcriptions
        [some shortChunkA, some shortChunkB]).bind ChunkResult.segments).getD []).map
          (fun s => s.words.length)).sum =
        chunkWordCount shortChunkA + chunkWordCount shortChunkB := by
  refine ⟨?_, ?_, ?_, ?_, ?_⟩
  · simp [chunkWordStarts, wordStartsOf, segmentWordStarts, shortChunkA]
  · simp [chunkWordStarts, wordStartsOf, segmentWordStarts, shortChunkB]
  · norm_num [merge_chunked_transcriptions, mergeStep, adjustSegment, shiftWord,
      wordStartsOf, segmentWordStarts, shortChunkA, shortChunkB,
      ChunkResult.isFalsy]
  · rw [List.chain'_cons]
    norm_num
  · norm_num [merge_chunked_transcriptions, mergeStep, adjustSegment, shiftWord,
      chunkWordCount, shortChunkA, shortChunkB, ChunkResult.isFalsy]

/-- `wordStartsOf` distributes over append. -/
lemma wordStartsOf_append (l₁ l₂ : List Segment) :
    wordStartsOf (l₁ ++ l₂) = wordStartsOf l₁ ++ wordStartsOf l₂ :=
  List.flatMap_append l₁ l₂ segmentWordStarts

/-- `wordStartsOf` on a cons. -/
lemma wordStartsOf_cons (s : Segment) (ss : List Segment) :
    wordStartsOf (s :: ss) = segmentWordStarts s ++ wordStartsOf ss :=
  List.flatMap_cons s ss segmentWordStarts

/-- The word starts of the merger's adjusted segments are the original
word starts shifted by the time offset (the id renumbering is
irrelevant to timing). -/
lemma wordStartsOf_adjust (t : ℚ) (i : Nat) :
    ∀ (segs : List Segment) (n : Nat),
      wordStartsOf ((segs.enumFrom n).map (fun p =>
        adjustSegment t (Int.ofNat (i + p.1)) p.2)) =
        (wordStartsOf segs).map (· + t) := by
  intro segs
  induction segs with
  | nil =>
    intro n
    simp [wordStartsOf]
  | cons s ss ih =>
    intro n
    rw [List.enumFrom_cons, List.map_cons, wordStartsOf_cons, wordStartsOf_cons,
      ih, List.map_append]
    congr 1
    simp [segmentWordStarts, adjustSegment, shiftWord, List.map_map]

/-- Every merged word start produced from well-formed chunks is at least
the running time offset: chunk-local starts are non-negative, and the
offset never decreases (each well-formed chunk's last segment ends at
1 s or later). -/
lemma specMerge_starts_lb :
    ∀ (cs : List ChunkResult) (i : Nat) (t : ℚ),
      (∀ c ∈ cs, WellFormedChunk c) →
      ∀ x ∈ wordStartsOf (specMergeSegments (cs.map some) i t), t ≤ x := by
  intro cs
  induction cs with
  | nil =>
    intro i t _ x hx
    simp [specMergeSegments, wordStartsOf] at hx
  | cons c rest ih =>
    intro i t hwf x hx
    obtain ⟨hseg, hne, hord, hpos, hbound⟩ := hwf c (List.mem_cons_self _ _)
    obtain ⟨segs, hsegs⟩ := Option.ne_none_iff_exists'.mp hseg
    have hws : chunkWordStarts c = wordStartsOf segs := by
      rw [chunkWordStarts, hsegs]
      rfl
    simp only [List.map_cons, specMergeSegments, hsegs] at hx
    rw [wordStartsOf_append, List.enum_eq_enumFrom, wordStartsOf_adjust] at hx
    have hE : 1 ≤ lastSegEnd c := by
      obtain ⟨y, hy⟩ := List.exists_mem_of_ne_nil _ hne
      have h1 := hpos y hy
      have h2 := hbound y hy
      linarith
    rcases List.mem_append.mp hx with h1 | h1
    · obtain ⟨y, hy, rfl⟩ := List.mem_map.mp h1
      have := hpos y (hws ▸ hy)
      linarith
    · have hlast : segs.getLast? ≠ none := by
        intro habs
        have : segs = [] := List.getLast?_eq_none_iff.mp habs
        rw [hws, this] at hne
        exact hne rfl
      obtain ⟨lastSeg, hlastSeg⟩ := Option.ne_none_iff_exists'.mp hlast
      have hEeq : lastSegEnd c = lastSeg.stop := by
        rw [lastSegEnd, hsegs]
        simp [hlastSeg]
      rw [hlastSeg] at h1
      have hrec := ih (i + segs.length) (t + lastSeg.stop - 1)
        (fun d hd => hwf d (List.mem_cons_of_mem _ hd)) x h1
      have : t ≤ t + lastSeg.stop - 1 := by
        rw [hEeq] at hE
        linarith
      linarith

/-- Merged word starts from well-formed chunks are monotonically
non-decreasing, both inside each chunk and across chunk boundaries. -/
lemma specMerge_starts_chain :
    ∀ (cs : List ChunkResult) (i : Nat) (t : ℚ),
      (∀ c ∈ cs, WellFormedChunk c) →
      List.Chain' (· ≤ ·) (wordStartsOf (specMergeSegments (cs.map some) i t)) := by
  intro cs
  induction cs with
  | nil =>
    intro i t _
    simp [specMergeSegments, wordStartsOf]
  | cons c rest ih =>
    intro i t hwf
    obtain ⟨hseg, hne, hord, hpos, hbound⟩ := hwf c (List.mem_cons_self _ _)
    obtain ⟨segs, hsegs⟩ := Option.ne_none_iff_exists'.mp hseg
    have hws : chunkWordStarts c = wordStartsOf segs := by
      rw [chunkWordStarts, hsegs]
      rfl
    simp only [List.map_cons, specMergeSegments, hsegs]
    rw [wordStartsOf_append, List.enum_eq_enumFrom, wordStartsOf_adjust]
    rw [List.chain'_append]
    refine ⟨?_, ?_, ?_⟩
    · exact List.chain'_map_of_chain' _ (fun a b hab => by linarith) (hws ▸ hord)
    · exact ih (i + segs.length) _ (fun d hd => hwf d (List.mem_cons_of_mem _ hd))
    · intro x hx y hy
      have hxmem : x ∈ (wordStartsOf segs).map (· + t) :=
        List.mem_of_mem_getLast? hx
      obtain ⟨w, hw, rfl⟩ := List.mem_map.mp hxmem
      have hwb := hbound w (hws ▸ hw)
      have hymem := List.mem_of_mem_head? hy
      have hlast : segs.getLast? ≠ none := by
        intro habs
        have : segs = [] := List.getLast?_eq_none_iff.mp habs
        rw [hws, this] at hne
        exact hne rfl
      obtain ⟨lastSeg, hlastSeg⟩ := Option.ne_none_iff_exists'.mp hlast
      have hEeq : lastSegEnd c = lastSeg.stop := by
        rw [lastSegEnd, hsegs]
        simp [hlastSeg]
      rw [hlastSeg] at hymem
      have hylb := specMerge_starts_lb rest (i + segs.length) (t + lastSeg.stop - 1)
        (fun d hd => hwf d (List.mem_cons_of_mem _ hd)) y hymem
      rw [hEeq] at hwb
      linarith

/-- The merged word count is the sum of the per-chunk word counts
(the id renumbering and time shifting do not change word counts; chunks
without a `segments` key count zero words on both sides). -/
lemma specMerge_wordCount :
    ∀ (cs : List ChunkResult) (i : Nat) (t : ℚ),
      ((specMergeSegments (cs.map some) i t).map (fun s => s.words.length)).sum =
        (cs.map chunkWordCount).sum := by
  intro cs
  induction cs with
  | nil =>
    intro i t
    simp [specMergeSegments]
  | cons c rest ih =>
    intro i t
    cases hsegs : c.segments with
    | none =>
      simp only [List.map_cons, specMergeSegments, hsegs, List.sum_cons]
      rw [ih]
      have : chunkWordCount c = 0 := by
        rw [chunkWordCount, hsegs]
        rfl
      rw [this]
      omega
    | some segs =>
      simp only [List.map_cons, specMergeSegments, hsegs, List.sum_cons]
      rw [List.map_append, List.sum_append, ih]
      congr 1
      rw [chunkWordCount, hsegs]
      simp only [Option.getD_some]
      rw [List.map_map]
      have : ((fun s : Segment => s.words.length) ∘ fun p : Nat × Segment =>
          adjustSegment t (Int.ofNat (i + p.1)) p.2) =
          (fun s : Segment => s.words.length) ∘ Prod.snd := by
        funext p
        simp [adjustSegment]
      rw [this, ← List.map_map, List.enum_map_snd]

/-- C5 (amended): for chunks that each carry a segment list with at least
one word, chunk-locally ordered non-negative word starts, and a last
segment ending at least one second after every word start (the boundary
shape the claim's "synthetic chunks" must satisfy — the counterexample
shows the claim fails without it), the merged word starts are
monotonically non-decreasing across chunk boundaries and the merged
word count equals the sum of the per-chunk word counts; the word-count
equality needs no hypothesis at all. -/
theorem c5_amended (cs : List ChunkResult) (hwf : ∀ c ∈ cs, WellFormedChunk c) :
    ∃ mr, merge_chunked_transcriptions (cs.map some) = some mr
      ∧ List.Chain' (· ≤ ·) (wordStartsOf (mr.segments.getD []))
      ∧ ((mr.segments.getD []).map (fun s => s.words.length)).sum =
          (cs.map chunkWordCount).sum := by
  have hnone : (cs.map some).any Option.isNone = false := by
    simp
  rw [merge_chunked_transcriptions.eq_def, hnone]
  simp only [Bool.false_eq_true, if_false]
  refine ⟨_, rfl, ?_, ?_⟩
  · have hfold := mergeFold_eq_spec (cs.map some) [] 0 0
    simp only [List.nil_append] at hfold
    simp only [Option.getD_some]
    rw [show (List.foldl mergeStep ([], 0, 0) (cs.map some)).1 =
      specMergeSegments (cs.map some) 0 0 from hfold]
    exact specMerge_starts_chain cs 0 0 hwf
  · have hfold := mergeFold_eq_spec (cs.map some) [] 0 0
    simp only [List.nil_append] at hfold
    simp only [Option.getD_some]
    rw [show (List.foldl mergeStep ([], 0, 0) (cs.map some)).1 =
      specMergeSegments (cs.map some) 0 0 from hfold]
    exact specMerge_wordCount cs 0 0

/-- Witness for C5 (amended): two copies of a chunk whose words start at
0 and 1 s and whose segment ends at 2 s satisfy the boundary hypothesis,
so their merge is monotone and word-count preserving. -/
theorem c5_amended_witness :
    ∃ mr, merge_chunked_transcriptions [some goodChunk, some goodChunk] = some mr
      ∧ List.Chain' (· ≤ ·) (wordStartsOf (mr.segments.getD []))
      ∧ ((mr.segments.getD []).map (fun s => s.words.length)).sum =
          ([goodChunk, goodChunk].map chunkWordCount).sum := by
  have hwf : WellFormedChunk goodChunk := by
    have hstarts : chunkWordStarts goodChunk = [0, 1] := by
      norm_num [chunkWordStarts, wordStartsOf, segmentWordStarts, goodChunk,
        goodSegment]
    have hlast : lastSegEnd goodChunk = 2 := by
      norm_num [lastSegEnd, goodChunk, goodSegment]
    refine ⟨by simp [goodChunk], ?_, ?_, ?_, ?_⟩ <;> rw [hstarts]
    · simp
    · rw [List.chain'_cons]
      norm_num
    · intro x hx
      fin_cases hx <;> norm_num
    · intro x hx
      rw [hlast]
      fin_cases hx <;> norm_num
  exact c5_amended [goodChunk, goodChunk]
    (by intro c hc; fin_cases hc <;> exact hwf)

/-- C8: a zero-segment transcription normalizes, without raising, to the
well-formed empty output — empty word list, empty subtitle text, empty
plain text, metadata with word count 0, duration 0 and confidence 0 —
and in general the reported confidence is the mean of the per-word
confidences, `0` when there are no words (no division by zero). -/
theorem c8_empty_normalizer :
    (∀ (url : String) (lang : Option String),
      generate_final_results ⟨[], lang⟩ url =
        ⟨[], "", "", ⟨url, 0, 0, lang.getD "unknown", 0⟩⟩)
    ∧ (∀ (d : AlignedData) (url : String),
        ((generate_final_results d url).words = [] →
          (generate_final_results d url).metadata.confidence = 0)
        ∧ ((generate_final_results d url).words ≠ [] →
          (generate_final_results d url).metadata.confidence =
            ((generate_final_results d url).words.map FinalWord.confidence).sum /
              ((generate_final_results d url).words.length : ℚ))) := by
  constructor
  · intro url lang
    rfl
  · intro d url
    constructor <;> intro h
    · have h' : (collectWords d.segments).1 = [] := h
      show (if (collectWords d.segments).1 = [] then (0 : ℚ)
        else ((collectWords d.segments).1.map FinalWord.confidence).sum /
          ((collectWords d.segments).1.length : ℚ)) = 0
      rw [if_pos h']
    · have h' : ¬ (collectWords d.segments).1 = [] := h
      show (if (collectWords d.segments).1 = [] then (0 : ℚ)
        else ((collectWords d.segments).1.map FinalWord.confidence).sum /
          ((collectWords d.segments).1.length : ℚ)) =
        ((collectWords d.segments).1.map FinalWord.confidence).sum /
          ((collectWords d.segments).1.length : ℚ)
      rw [if_neg h']

/-- The aligned data of the C8 witness: one segment with two words. -/
def c8ExampleData : AlignedData := ⟨[goodSegment], some "en"⟩

/-- Witness for C8, applying the mean-confidence conjunct to a
two-word transcription. -/
theorem c8_empty_normalizer_witness :
    (generate_final_results c8ExampleData "u").words ≠ []
    ∧ (generate_final_results c8ExampleData "u").metadata.confidence =
        ((generate_final_results c8ExampleData "u").words.map FinalWord.confidence).sum /
          ((generate_final_results c8ExampleData "u").words.length : ℚ) :=
  ⟨by decide, (c8_empty_normalizer.2 c8ExampleData "u").2 (by decide)⟩

/-- The `all_text` list the normalizer joins into `plain` is exactly the
text of its public word list, entry for entry. -/
lemma collectWords_snd_eq :
    ∀ segs : List Segment,
      (collectWords segs).2 = (collectWords segs).1.map FinalWord.word := by
  intro segs
  induction segs with
  | nil => rfl
  | cons s rest ih =>
    by_cases hw : s.words ≠ []
    · simp [collectWords, hw, ih, List.map_map]
    · by_cases ht : pyStrip s.text ≠ ""
      · simp [collectWords, hw, ht, ih]
      · simp [collectWords, hw, ht, ih]

/-- C10: a segment with no word-level entries whose stripped text is
non-empty contributes exactly one entry to the public word list,
spanning the segment's start to its end with confidence
`1.0 − no_speech_prob`; and that word list is what the normalizer
reports — its length is the word count and its entries' text joined by
single spaces is the plain text (the subtitle grouping likewise consumes
this same list). -/
theorem c10_textonly_segment :
    (∀ (pre post : List Segment) (s : Segment),
      s.words = [] → pyStrip s.text ≠ "" →
      (collectWords (pre ++ s :: post)).1 =
        (collectWords pre).1 ++
          ⟨pyStrip s.text, s.start, s.stop, 1 - s.no_speech_prob⟩ ::
            (collectWords post).1)
    ∧ (∀ segs, (collectWords segs).2 = (collectWords segs).1.map FinalWord.word)
    ∧ (∀ (d : AlignedData) (url : String),
        (generate_final_results d url).words = (collectWords d.segments).1
        ∧ (generate_final_results d url).metadata.wordCount =
            (collectWords d.segments).1.length
        ∧ (generate_final_results d url).plain =
            pyJoin " " ((collectWords d.segments).1.map FinalWord.word)) := by
  refine ⟨?_, collectWords_snd_eq, ?_⟩
  · intro pre
    induction pre with
    | nil =>
      intro post s h1 h2
      simp [collectWords, h1, h2]
    | cons p pre' ih =>
      intro post s h1 h2
      simp only [List.cons_append, collectWords, List.append_eq]
      rw [ih post s h1 h2]
      simp
  · intro d url
    refine ⟨rfl, rfl, ?_⟩
    show pyJoin " " (collectWords d.segments).2 = _
    rw [collectWords_snd_eq]

/-- A segment with no word entries and non-blank text. -/
def textOnlySegment : Segment := ⟨3, 5, 8, " some text ", [], 1/5⟩

/-- Witness for C10: the text-only segment contributes its single
stripped-text entry. -/
theorem c10_textonly_segment_witness :
    textOnlySegment.words = []
    ∧ pyStrip textOnlySegment.text ≠ ""
    ∧ (collectWords ([] ++ textOnlySegment :: [])).1 =
        (collectWords []).1 ++
          ⟨pyStrip textOnlySegment.text, textOnlySegment.start, textOnlySegment.stop,
            1 - textOnlySegment.no_speech_prob⟩ :: (collectWords []).1 :=
  ⟨rfl, by decide,
   c10_textonly_segment.1 [] [] textOnlySegment rfl (by decide)⟩

end YT
